import Mathlib

/-!
Shallow embedding of the OpenOAInterface repository core: the frontend API
client, analysis form, multi-analysis selector, comparison view and export
utilities (all present in the sources), together with the backend ingestion
pipeline (column mapper, upload route, dataset registry, analysis
dispatcher), which is absent from the sources and is therefore modelled
from the specification and the in-repo documentation.
-/

namespace OpenOA

/-- The five analysis types of the dashboard, from the frontend union type
`AnalysisType` in `webapp/frontend/src/types/api.ts`. -/
inductive AnalysisType where
  | aep_monte_carlo
  | electrical_losses
  | wake_losses
  | turbine_ideal_energy
  | eya_gap_analysis
deriving DecidableEq, Repr

/-- The uniform result bag from `webapp/frontend/src/types/api.ts`
(`AnalysisResult`, optional-field variant): every type-specific metric is
optional; numbers are embedded as rationals. -/
structure AnalysisResult where
  analysis_type : String
  notes : Option String := none
  raw_columns : Option (List String) := none
  aep_gwh : Option ℚ := none
  uncertainty_pct : Option ℚ := none
  capacity_factor : Option ℚ := none
  plant_capacity_mw : Option ℚ := none
  iterations : Option Int := none
  total_loss_pct : Option ℚ := none
  wake_loss_pct : Option ℚ := none
  ideal_energy_gwh : Option ℚ := none
  gap_pct : Option ℚ := none
deriving Repr, DecidableEq

/-- The analysis response envelope from `webapp/frontend/src/types/api.ts`
(`AnalysisResponse`): id, status, result bag, timestamps, error. -/
structure AnalysisResponse where
  id : String
  status : String
  result : AnalysisResult
  created_at : Option String := none
  completed_at : Option String := none
  error : Option String := none
deriving Repr, DecidableEq

/-! ## API client (`frontend/src/services/api.ts`, `request`) -/

/-- An HTTP response as the `fetch` result is consumed by `request`:
`ok` flag, numeric status, the body as text, and the body parsed as JSON
(abstracted as a value of an arbitrary type). -/
structure HttpResponse (T : Type) where
  ok : Bool
  statusCode : Nat
  bodyText : String
  jsonBody : T

/-- `request` from `frontend/src/services/api.ts`: return the parsed JSON
body when `response.ok`, otherwise throw an `Error` whose message is the
body text, or a status-code message when the body text is empty (the JS
`message || fallback` treats the empty string as falsy). -/
def request {T : Type} (r : HttpResponse T) : Except String T :=
  if r.ok then
    Except.ok r.jsonBody
  else
    Except.error
      (if r.bodyText = "" then "Request failed with " ++ toString r.statusCode
       else r.bodyText)

/-! ## Analysis form (`AnalysisForm.handleSubmit`) -/

/-- `AnalysisForm.handleSubmit` clamps the iteration count before
submitting: `Math.min(Math.max(iterations, 50), 5000)`. -/
def safeIterations (n : Int) : Int := min (max n 50) 5000

/-! ## Analysis dispatcher result mapping -/

/-- Library-native output values available to the dispatcher when it maps
an external-library result onto the uniform bag; one candidate value per
metric. -/
structure LibOutput where
  aep_gwh : ℚ
  uncertainty_pct : ℚ
  capacity_factor : ℚ
  plant_capacity_mw : ℚ
  total_loss_pct : ℚ
  wake_loss_pct : ℚ
  ideal_energy_gwh : ℚ
  gap_pct : ℚ

/-- Modelled from the spec: the backend Analysis Dispatcher is absent from
the sources; per §4.4 it maps library-native output fields onto the uniform
`AnalysisResult.result` bag, with field presence varying by type
(`aep_gwh`/`uncertainty_pct` for AEP, `total_loss_pct` for electrical
losses, `wake_loss_pct` for wake losses, `ideal_energy_gwh` for
turbine-ideal-energy, `gap_pct` for EYA-gap); the AEP branch also carries
`capacity_factor`, `plant_capacity_mw` and `iterations` per the frontend
type and Scenario B. -/
def dispatchResult (t : AnalysisType) (o : LibOutput) (iters : Int) : AnalysisResult :=
  match t with
  | .aep_monte_carlo =>
      { analysis_type := "aep"
        aep_gwh := some o.aep_gwh
        uncertainty_pct := some o.uncertainty_pct
        capacity_factor := some o.capacity_factor
        plant_capacity_mw := some o.plant_capacity_mw
        iterations := some iters }
  | .electrical_losses =>
      { analysis_type := "electrical_losses"
        total_loss_pct := some o.total_loss_pct }
  | .wake_losses =>
      { analysis_type := "wake_losses"
        wake_loss_pct := some o.wake_loss_pct }
  | .turbine_ideal_energy =>
      { analysis_type := "turbine_ideal_energy"
        ideal_energy_gwh := some o.ideal_energy_gwh }
  | .eya_gap_analysis =>
      { analysis_type := "eya_gap"
        gap_pct := some o.gap_pct }

/-! ## Multi-analysis selector (`MultiAnalysisSelector.tsx`) -/

/-- One entry of `ANALYSIS_OPTIONS` in `MultiAnalysisSelector.tsx`. -/
structure AnalysisOption where
  value : AnalysisType
  label : String
  description : String
  disabled : Bool := false
  disabledReason : Option String := none

/-- `ANALYSIS_OPTIONS` from `MultiAnalysisSelector.tsx`: the five analysis
types, with the two long-running ones marked disabled. -/
def ANALYSIS_OPTIONS : List AnalysisOption :=
  [ { value := .aep_monte_carlo
      label := "AEP (Monte Carlo)"
      description := "Annual Energy Production with uncertainty analysis" },
    { value := .electrical_losses
      label := "Electrical Losses"
      description := "Transmission and electrical system losses" },
    { value := .wake_losses
      label := "Wake Losses"
      description := "Turbine wake interaction effects"
      disabled := true
      disabledReason := some "Long-running analysis - use single analysis mode" },
    { value := .turbine_ideal_energy
      label := "Turbine Ideal Energy"
      description := "Theoretical maximum energy production"
      disabled := true
      disabledReason := some "Long-running analysis - use single analysis mode" },
    { value := .eya_gap_analysis
      label := "EYA Gap Analysis"
      description := "Compare actual vs expected yield assessment" } ]

/-- The `option?.disabled` lookup of `toggleSelection`: whether the option
found for a type in `ANALYSIS_OPTIONS` is disabled (false when absent, as
`undefined` is falsy). -/
def disabledOf (t : AnalysisType) : Bool :=
  ((ANALYSIS_OPTIONS.find? (fun o => o.value = t)).map (·.disabled)).getD false

/-- `toggleSelection` from `MultiAnalysisSelector.tsx`: a disabled option
leaves the selection unchanged, otherwise the type is removed when present
and added when absent. -/
def toggleSelection (sel : List AnalysisType) (t : AnalysisType) : List AnalysisType :=
  if disabledOf t then sel
  else if t ∈ sel then sel.erase t
  else t :: sel

/-- `selectAll` from `MultiAnalysisSelector.tsx`: the selection becomes the
non-disabled options, in option order. -/
def selectAllTypes : List AnalysisType :=
  (ANALYSIS_OPTIONS.filter (fun o => !o.disabled)).map (·.value)

/-- The user interactions that mutate the selector state. -/
inductive SelectorOp where
  | toggle (t : AnalysisType)
  | selectAll
  | clearAll

/-- One state transition of the selector: `toggleSelection`, `selectAll`
(non-disabled options) or `clearAll` (empty set). -/
def stepSelector (sel : List AnalysisType) : SelectorOp → List AnalysisType
  | .toggle t => toggleSelection sel t
  | .selectAll => selectAllTypes
  | .clearAll => []

/-- The selection reached from the initial empty set by a sequence of user
interactions. -/
def runSelector (ops : List SelectorOp) : List AnalysisType :=
  ops.foldl stepSelector []

/-- `handleRunMultiple` from `MultiAnalysisSelector.tsx`: invokes
`onRunMultiple` with the selected types only when the selection is
non-empty. -/
def handleRunMultiple (sel : List AnalysisType) : Option (List AnalysisType) :=
  if sel.isEmpty then none else some sel

/-- The `endpoints` record of `runAnalysisByType` in
`frontend/src/services/api.ts`: every analysis type has a single-run
endpoint. -/
def endpoints : AnalysisType → String
  | .aep_monte_carlo => "/api/v1/analysis/aep"
  | .electrical_losses => "/api/v1/analysis/electrical-losses"
  | .wake_losses => "/api/v1/analysis/wake-losses"
  | .turbine_ideal_energy => "/api/v1/analysis/turbine-ideal-energy"
  | .eya_gap_analysis => "/api/v1/analysis/eya-gap"

/-- `runAnalysisByType` endpoint resolution: throws when the looked-up
endpoint is falsy (for a total record, only the empty string would be),
otherwise issues the single-run request to that endpoint. -/
def runAnalysisSingle (t : AnalysisType) : Option String :=
  let e := endpoints t
  if e = "" then none else some e

/-! ## Column mapper and upload route -/

/-- Modelled from the spec: the backend upload route and Column Mapper are
absent from the sources; the alias table follows the Column Mapping note in
the in-repo deployment plan, which maps the La Haute Borne headers
Date_time to time, P_avg to WTUR_W, and Ws_avg to WMET_HorWdSpd. -/
def uploadAliasTable : List (String × String) :=
  [("Date_time", "time"), ("P_avg", "WTUR_W"), ("Ws_avg", "WMET_HorWdSpd")]

/-- ASCII lowercasing of one character, the case folding used for the
case-insensitive header comparison. -/
def asciiLowerChar (c : Char) : Char :=
  if 'A' ≤ c ∧ c ≤ 'Z' then Char.ofNat (c.toNat + 32) else c

/-- ASCII lowercasing of a string, characterwise. -/
def asciiLower (s : String) : String := ⟨s.data.map asciiLowerChar⟩

/-- Modelled from the spec: case-insensitive exact match of one raw header
against the alias table, yielding the canonical field when an entry
matches. -/
def lookupAlias (table : List (String × String)) (h : String) : Option String :=
  (table.find? (fun p => asciiLower p.1 == asciiLower h)).map Prod.snd

/-- Modelled from the spec: the Column Mapper applied to a header list —
for each raw header, the canonical field it maps to (none when unmapped,
such headers being surfaced as extra columns). -/
def mapHeaders (table : List (String × String)) (hs : List String) : List (Option String) :=
  hs.map (lookupAlias table)

/-- Modelled from the spec: the column names reported after mapping —
each header replaced by its canonical field when the alias table matches,
kept raw otherwise. -/
def canonicalColumns (table : List (String × String)) (hs : List String) : List String :=
  hs.map (fun h => (lookupAlias table h).getD h)

/-- The `POST /upload-plant-data` success payload fields the ingestion
claims speak about: `row_count` and `columns`. -/
structure UploadRouteResponse where
  row_count : Nat
  columns : List String
deriving Repr, DecidableEq

/-- Modelled from the spec: the upload route on an already-split CSV (the
header as its list of cells, then the data lines as their lists of cells)
applies the Column Mapper with the alias table and reports the parsed row
count and the mapped column names; an upload without a header line is
rejected as unparseable. -/
def uploadPlantDataRoute (cells : List (List String)) : Option UploadRouteResponse :=
  match cells with
  | [] => none
  | header :: dataRows =>
      some { row_count := dataRows.length
             columns := canonicalColumns uploadAliasTable header }

/-! ## Dataset registry -/

/-- The Dataset record of the spec data model: opaque id, filename, the
default flag, and an expiry instant (none for the permanent default
dataset). -/
structure Dataset where
  id : String
  filename : String := ""
  is_default : Bool := false
  created_at : Nat := 0
  expires_at : Option Nat := none
deriving Repr, DecidableEq

/-- Modelled from the spec: Dataset Registry `get` — lookup of a dataset by
id, `none` standing for `DatasetNotFound`. -/
def getDataset (reg : List Dataset) (i : String) : Option Dataset :=
  reg.find? (fun d => d.id == i)

/-- Modelled from the spec: `delete_expired` run at instant `now` purges
every dataset whose `expires_at` has passed; the default dataset is
immutable and permanent, so it is always retained. -/
def deleteExpired (now : Nat) (reg : List Dataset) : List Dataset :=
  reg.filter (fun d =>
    d.is_default ||
      match d.expires_at with
      | some t => decide (now ≤ t)
      | none => true)

/-! ## Active dataset state of the dashboard (`App.tsx`) -/

/-- The `activeDataset` state shape of `App.tsx`: id, display name and the
default flag. -/
structure ActiveDataset where
  id : String
  name : String
  isDefault : Bool
deriving Repr, DecidableEq

/-- The upload response shape consumed by `App.handleFileUpload`, from
`uploadPlantData` in `frontend/src/services/api.ts`. -/
structure FrontUploadResponse where
  status : String
  message : String
  file_id : String
  filename : String
  file_type : String
  row_count : Nat
  columns : List String
  file_size_bytes : Nat

/-- The initial `activeDataset` state in `App.tsx`: the bundled default
dataset under the fixed sentinel id. -/
def initialActiveDataset : Option ActiveDataset :=
  some { id := "default", name := "la-haute-borne-data-2014-2015.csv", isDefault := true }

/-- `onClearDataset` in `App.tsx` resets `activeDataset` to the default
sentinel dataset. -/
def datasetAfterClear : Option ActiveDataset :=
  some { id := "default", name := "la-haute-borne-data-2014-2015.csv", isDefault := true }

/-- `handleFileUpload` in `App.tsx` sets the uploaded file as the active
dataset, with `isDefault := false`. -/
def datasetAfterUpload (resp : FrontUploadResponse) : Option ActiveDataset :=
  some { id := resp.file_id, name := resp.filename, isDefault := false }

/-- The `activeDataset` values the dashboard can reach: the initial value,
the value after clearing, or the value after some upload. -/
def reachableActiveDataset (o : Option ActiveDataset) : Prop :=
  o = initialActiveDataset ∨ o = datasetAfterClear ∨
    ∃ resp, o = datasetAfterUpload resp

/-- The `file_id` computation of `App.runAnalysis`:
`activeDataset?.isDefault ? undefined : activeDataset?.id` — the request
omits `file_id` (none) for the default dataset and sends the dataset id
otherwise. -/
def fileIdFor (o : Option ActiveDataset) : Option String :=
  match o with
  | none => none
  | some d => if d.isDefault then none else some d.id

/-- Modelled from the spec: the backend dispatcher resolves the dataset id
of an analysis request to the default sentinel when no id is supplied. -/
def resolveDatasetId (o : Option String) : String := o.getD "default"

/-! ## Comparison view summary statistics (`ComparisonView.tsx`) -/

/-- The metric keys of the `metrics` table in `ComparisonView.tsx`; the
summary cards use the first two (`aep_gwh`, `uncertainty_pct`). -/
inductive MetricKey where
  | aep_gwh
  | uncertainty_pct
  | capacity_factor
  | plant_capacity_mw
deriving DecidableEq, Repr

/-- `analysis.result[metric.key]` — the optional numeric value of a
result-bag field. -/
def getMetric (k : MetricKey) (r : AnalysisResult) : Option ℚ :=
  match k with
  | .aep_gwh => r.aep_gwh
  | .uncertainty_pct => r.uncertainty_pct
  | .capacity_factor => r.capacity_factor
  | .plant_capacity_mw => r.plant_capacity_mw

/-- `Math.min(...values)` over a non-empty spread: fold of `min` over the
remaining values starting from the first. -/
def minOf (x : ℚ) (xs : List ℚ) : ℚ := xs.foldl min x

/-- `Math.max(...values)` over a non-empty spread: fold of `max` over the
remaining values starting from the first. -/
def maxOf (x : ℚ) (xs : List ℚ) : ℚ := xs.foldl max x

/-- One rendered summary card of `ComparisonView.tsx`: average, range, min
and max of a metric. -/
structure SummaryStats where
  avg : ℚ
  range : ℚ
  minVal : ℚ
  maxVal : ℚ
deriving Repr, DecidableEq

/-- The `values` array of a summary card: the metric of each analysis,
keeping only analyses that carry a numeric value for it. -/
def summaryValues (k : MetricKey) (analyses : List AnalysisResponse) : List ℚ :=
  analyses.filterMap (fun a => getMetric k a.result)

/-- The summary card computation of `ComparisonView.tsx`: none when no
analysis carries the metric (no card is rendered), otherwise the average
`sum / length`, the range `max - min`, and min and max of the carried
values. -/
def summaryFor (k : MetricKey) (analyses : List AnalysisResponse) : Option SummaryStats :=
  match summaryValues k analyses with
  | [] => none
  | v :: vs =>
      some { avg := (v :: vs).sum / (v :: vs).length
             range := maxOf v vs - minOf v vs
             minVal := minOf v vs
             maxVal := maxOf v vs }

/-! ## Comparison export (`frontend/src/utils/export.ts`) -/

/-- Decimal rendering of the rationals standing for JS numbers: integers
render as their digits (so 0 renders as the string 0), non-integral values
as numerator slash denominator. -/
def ratToString (q : ℚ) : String :=
  if q.den = 1 then toString q.num else toString q.num ++ "/" ++ toString q.den

/-- The CSV header row of `exportComparisonToCSV`. -/
def comparisonHeaders : List String :=
  ["Analysis ID", "Type", "AEP (GWh)", "Uncertainty (%)", "Capacity Factor (%)",
   "Iterations", "Status", "Created At"]

/-- The CSV row `exportComparisonToCSV` emits for one analysis: id, type,
then the four numeric fields with absent values defaulted to 0 via `?? 0`,
then status and the creation timestamp (empty when absent). -/
def comparisonRowFor (a : AnalysisResponse) : List String :=
  [a.id,
   a.result.analysis_type,
   ratToString (a.result.aep_gwh.getD 0),
   ratToString (a.result.uncertainty_pct.getD 0),
   ratToString (a.result.capacity_factor.getD 0),
   toString (a.result.iterations.getD 0),
   a.status,
   a.created_at.getD ""]

/-- A data row rendered to CSV text: every cell wrapped in double quotes
and the cells joined with commas. -/
def renderCsvRow (row : List String) : String :=
  String.intercalate "," (row.map (fun cell => "\"" ++ cell ++ "\""))

/-- The data lines of the comparison CSV, one per analysis in input
order. -/
def comparisonCsvLines (analyses : List AnalysisResponse) : List String :=
  analyses.map (fun a => renderCsvRow (comparisonRowFor a))

/-- `exportComparisonToCSV` from `frontend/src/utils/export.ts`: returns
without producing a file for an empty input, otherwise produces the CSV
content — the header line followed by one data row per analysis. -/
def exportComparisonToCSV (analyses : List AnalysisResponse) : Option String :=
  if analyses.isEmpty then none
  else
    some (String.intercalate "\n"
      (String.intercalate "," comparisonHeaders :: comparisonCsvLines analyses))

end OpenOA

namespace OpenOA

/-- C7: no error is silently swallowed at the API-client boundary: `request`
returns the parsed JSON body exactly when the response status is ok, and on
any non-ok response it returns an error carrying the response body text (or
a status-code message when the body is empty), returning no partial
result. -/
theorem request_ok_iff_and_error_shape {T : Type} (r : HttpResponse T) :
    ((∃ v, request r = Except.ok v) ↔ r.ok = true) ∧
    (∀ v, request r = Except.ok v → v = r.jsonBody) ∧
    (r.ok = false →
      request r = Except.error
        (if r.bodyText = "" then "Request failed with " ++ toString r.statusCode
         else r.bodyText)) := by
  unfold request
  constructor
  · constructor
    · rintro ⟨v, hv⟩
      by_contra hok
      simp [Bool.not_eq_true] at hok
      simp [hok] at hv
    · intro hok
      exact ⟨r.jsonBody, by simp [hok]⟩
  · constructor
    · intro v hv
      by_cases hok : r.ok <;> simp [hok] at hv
      exact hv.symm
    · intro hok
      simp [hok]

/-- Witness for C7: the theorem applied to a concrete non-ok response with
an empty body yields the status-code error message. -/
theorem request_ok_iff_and_error_shape_witness :
    ((⟨false, 404, "", 7⟩ : HttpResponse Nat).ok = false) ∧
    request (⟨false, 404, "", 7⟩ : HttpResponse Nat) =
      Except.error "Request failed with 404" := by
  refine ⟨rfl, ?_⟩
  have h := (request_ok_iff_and_error_shape (⟨false, 404, "", 7⟩ : HttpResponse Nat)).2.2 rfl
  simpa using h

/-- C6: iteration counts are capped before submission: the value sent
equals `min (max n 50) 5000`, always lies in the range 50..5000, and inputs
already in that range pass through unchanged. -/
theorem safeIterations_clamps (n : Int) :
    safeIterations n = min (max n 50) 5000 ∧
    50 ≤ safeIterations n ∧ safeIterations n ≤ 5000 ∧
    (50 ≤ n → n ≤ 5000 → safeIterations n = n) := by
  refine ⟨rfl, ?_, ?_, ?_⟩ <;> simp only [safeIterations] <;> omega

/-- Witness for C6: at the in-range input 1000 the clamp is the identity,
and the clamp at the out-of-range input 9999 is 5000. -/
theorem safeIterations_clamps_witness :
    ((50 : Int) ≤ 1000 ∧ (1000 : Int) ≤ 5000 ∧ safeIterations 1000 = 1000) ∧
    safeIterations 9999 = 5000 := by
  refine ⟨⟨by decide, by decide, (safeIterations_clamps 1000).2.2.2 (by decide) (by decide)⟩, ?_⟩
  decide

/-- C2: field presence in the uniform result bag varies by analysis type:
`aep_gwh` and `uncertainty_pct` are present exactly for AEP,
`total_loss_pct` exactly for electrical losses, `wake_loss_pct` exactly for
wake losses, `ideal_energy_gwh` exactly for turbine-ideal-energy, and
`gap_pct` exactly for EYA-gap — so each type-specific field is absent for
some type and consumers must treat it as optional. -/
theorem dispatchResult_field_presence (t : AnalysisType) (o : LibOutput) (iters : Int) :
    ((dispatchResult t o iters).aep_gwh.isSome ↔ t = .aep_monte_carlo) ∧
    ((dispatchResult t o iters).uncertainty_pct.isSome ↔ t = .aep_monte_carlo) ∧
    ((dispatchResult t o iters).total_loss_pct.isSome ↔ t = .electrical_losses) ∧
    ((dispatchResult t o iters).wake_loss_pct.isSome ↔ t = .wake_losses) ∧
    ((dispatchResult t o iters).ideal_energy_gwh.isSome ↔ t = .turbine_ideal_energy) ∧
    ((dispatchResult t o iters).gap_pct.isSome ↔ t = .eya_gap_analysis) := by
  cases t <;> simp [dispatchResult]

/-- The selector invariant: the two long-running types are not selected. -/
def noLongRunning (sel : List AnalysisType) : Prop :=
  AnalysisType.wake_losses ∉ sel ∧ AnalysisType.turbine_ideal_energy ∉ sel

/-- A member of the toggled selection is either the toggled, non-disabled
type itself or was already selected. -/
theorem mem_toggleSelection (sel : List AnalysisType) (t x : AnalysisType)
    (hx : x ∈ toggleSelection sel t) : (x = t ∧ disabledOf t = false) ∨ x ∈ sel := by
  unfold toggleSelection at hx
  by_cases hd : disabledOf t
  · rw [if_pos hd] at hx
    exact Or.inr hx
  · rw [if_neg hd] at hx
    by_cases hm : t ∈ sel
    · rw [if_pos hm] at hx
      exact Or.inr (List.mem_of_mem_erase hx)
    · rw [if_neg hm] at hx
      rcases List.mem_cons.mp hx with h | h
      · exact Or.inl ⟨h, Bool.not_eq_true _ ▸ hd⟩
      · exact Or.inr h

/-- Every single selector interaction preserves the absence of the two
long-running analysis types from the selected set. -/
theorem stepSelector_preserves_noLongRunning (sel : List AnalysisType) (op : SelectorOp)
    (h : noLongRunning sel) : noLongRunning (stepSelector sel op) := by
  obtain ⟨hw, ht⟩ := h
  cases op with
  | toggle t =>
      constructor <;> intro hmem <;>
        rcases mem_toggleSelection sel t _ hmem with ⟨heq, hdis⟩ | hmem'
      · rw [← heq] at hdis
        exact absurd hdis (by decide)
      · exact hw hmem'
      · rw [← heq] at hdis
        exact absurd hdis (by decide)
      · exact ht hmem'
  | selectAll =>
      refine ⟨?_, ?_⟩ <;> simp only [stepSelector] <;> decide
  | clearAll =>
      refine ⟨?_, ?_⟩ <;> simp [stepSelector]

/-- C5: the two long-running analysis types never enter the multi-run
selection (whatever sequence of toggles, select-all and clear-all the user
performs), hence `onRunMultiple` is never invoked with either of them,
while the single-run endpoint lookup succeeds for all five types. -/
theorem selector_excludes_long_running (ops : List SelectorOp) :
    noLongRunning (runSelector ops) ∧
    (∀ l, handleRunMultiple (runSelector ops) = some l →
      AnalysisType.wake_losses ∉ l ∧ AnalysisType.turbine_ideal_energy ∉ l) ∧
    (∀ t, (runAnalysisSingle t).isSome = true) := by
  have hinv : noLongRunning (runSelector ops) := by
    unfold runSelector
    have hgen : ∀ (l : List SelectorOp) (s : List AnalysisType), noLongRunning s →
        noLongRunning (l.foldl stepSelector s) := by
      intro l
      induction l with
      | nil => intro s hs; exact hs
      | cons op rest ih =>
          intro s hs
          exact ih _ (stepSelector_preserves_noLongRunning s op hs)
    exact hgen ops [] ⟨by simp, by simp⟩
  refine ⟨hinv, ?_, ?_⟩
  · intro l hl
    unfold handleRunMultiple at hl
    by_cases hemp : (runSelector ops).isEmpty <;> simp [hemp] at hl
    exact hl ▸ hinv
  · intro t
    cases t <;> decide

/-- C1 counterexample: uploading the CSV with headers Date_time, P_avg,
Ws_avg maps them to time, WTUR_W and WMET_HorWdSpd, so the response columns
contain neither power nor wind_speed, refuting the claimed canonical
names. -/
theorem upload_la_haute_borne_no_power_column :
    uploadPlantDataRoute
        [["Date_time", "P_avg", "Ws_avg"],
         ["2014-01-01 00:00", "100.5", "7.2"],
         ["2014-01-01 00:10", "98.1", "6.9"]] =
      some { row_count := 2, columns := ["time", "WTUR_W", "WMET_HorWdSpd"] } ∧
    "power" ∉ ["time", "WTUR_W", "WMET_HorWdSpd"] ∧
    "wind_speed" ∉ ["time", "WTUR_W", "WMET_HorWdSpd"] := by
  refine ⟨rfl, by decide, by decide⟩

/-- C1 (amended): uploading a CSV whose headers are Date_time, P_avg,
Ws_avg yields columns mapped to the canonical names time, WTUR_W and
WMET_HorWdSpd, and the upload response row_count equals the number of data
lines, with columns containing those three canonical names. -/
theorem upload_la_haute_borne_mapping (dataRows : List (List String)) :
    uploadPlantDataRoute (["Date_time", "P_avg", "Ws_avg"] :: dataRows) =
      some { row_count := dataRows.length
             columns := ["time", "WTUR_W", "WMET_HorWdSpd"] } ∧
    "time" ∈ ["time", "WTUR_W", "WMET_HorWdSpd"] ∧
    "WTUR_W" ∈ ["time", "WTUR_W", "WMET_HorWdSpd"] ∧
    "WMET_HorWdSpd" ∈ ["time", "WTUR_W", "WMET_HorWdSpd"] := by
  refine ⟨rfl, by decide, by decide, by decide⟩

/-- Looking an alias up is determined by the case-folded header: two
headers equal up to letter case resolve to the same canonical field. -/
theorem lookupAlias_congr (table : List (String × String)) (a b : String)
    (h : asciiLower a = asciiLower b) : lookupAlias table a = lookupAlias table b := by
  unfold lookupAlias
  simp only [h]

/-- C3: for every alias table and header list, the column mapping is
invariant under any case permutation of the header entries — entrywise
case-equivalent header lists map to the same canonical fields. -/
theorem mapHeaders_case_insensitive (table : List (String × String))
    (hs hs' : List String)
    (h : List.Forall₂ (fun a b => asciiLower a = asciiLower b) hs hs') :
    mapHeaders table hs = mapHeaders table hs' := by
  induction h with
  | nil => rfl
  | cons hab htail ih =>
      simp only [mapHeaders, List.map_cons]
      exact congrArg₂ List.cons (lookupAlias_congr table _ _ hab) ih

/-- Witness for C3: the La Haute Borne headers and a case-permuted variant
are case-equivalent, and the theorem applied there yields the same
mapping. -/
theorem mapHeaders_case_insensitive_witness :
    List.Forall₂ (fun a b => asciiLower a = asciiLower b)
      ["Date_time", "P_avg", "Ws_avg"] ["DATE_TIME", "p_AVG", "ws_AVG"] ∧
    mapHeaders uploadAliasTable ["Date_time", "P_avg", "Ws_avg"] =
      mapHeaders uploadAliasTable ["DATE_TIME", "p_AVG", "ws_AVG"] := by
  have hf : List.Forall₂ (fun a b => asciiLower a = asciiLower b)
      ["Date_time", "P_avg", "Ws_avg"] ["DATE_TIME", "p_AVG", "ws_AVG"] :=
    List.Forall₂.cons (by decide)
      (List.Forall₂.cons (by decide)
        (List.Forall₂.cons (by decide) List.Forall₂.nil))
  exact ⟨hf, mapHeaders_case_insensitive uploadAliasTable _ _ hf⟩

/-- C4: once `delete_expired` runs at instant `now`, a `get` on the id of
any dataset whose expiry has passed (and which is not the permanent
default) returns DatasetNotFound, while the default dataset is never
deleted. -/
theorem deleteExpired_get_none_and_keeps_default
    (reg : List Dataset) (now : Nat) (d : Dataset)
    (hnodup : (reg.map Dataset.id).Nodup) (hmem : d ∈ reg) :
    (∀ t, d.expires_at = some t → t < now → d.is_default = false →
      getDataset (deleteExpired now reg) d.id = none) ∧
    (d.is_default = true → d ∈ deleteExpired now reg) := by
  constructor
  · intro t hexp hlt hdef
    unfold getDataset
    rw [List.find?_eq_none]
    intro x hx hbeq
    obtain ⟨hxreg, hpred⟩ := List.mem_filter.mp hx
    have hid : x.id = d.id := by simpa using hbeq
    have hxd : x = d := List.inj_on_of_nodup_map hnodup hxreg hmem hid
    subst hxd
    simp only [deleteExpired, hdef, hexp, Bool.false_or] at hpred
    exact absurd (of_decide_eq_true hpred) (by omega)
  · intro hdef
    exact List.mem_filter.mpr ⟨hmem, by simp [hdef]⟩

/-- Witness for C4: in a registry holding the default dataset and one
uploaded dataset expired at 10, cleanup at instant 11 makes the uploaded id
unfindable while the default remains. -/
theorem deleteExpired_get_none_and_keeps_default_witness :
    (([⟨"default", "sample.csv", true, 0, none⟩,
        ⟨"u1", "a.csv", false, 0, some 10⟩] : List Dataset).map Dataset.id).Nodup ∧
    getDataset
      (deleteExpired 11
        [⟨"default", "sample.csv", true, 0, none⟩,
         ⟨"u1", "a.csv", false, 0, some 10⟩]) "u1" = none ∧
    (⟨"default", "sample.csv", true, 0, none⟩ : Dataset) ∈
      deleteExpired 11
        [⟨"default", "sample.csv", true, 0, none⟩,
         ⟨"u1", "a.csv", false, 0, some 10⟩] := by
  have hnodup : (([⟨"default", "sample.csv", true, 0, none⟩,
      ⟨"u1", "a.csv", false, 0, some 10⟩] : List Dataset).map Dataset.id).Nodup := by
    decide
  refine ⟨hnodup, ?_, ?_⟩
  · exact (deleteExpired_get_none_and_keeps_default _ 11
      (⟨"u1", "a.csv", false, 0, some 10⟩ : Dataset) hnodup (by decide)).1
      10 rfl (by decide) rfl
  · exact (deleteExpired_get_none_and_keeps_default _ 11
      (⟨"default", "sample.csv", true, 0, none⟩ : Dataset) hnodup (by decide)).2 rfl

/-- C8: the default dataset carries the fixed sentinel id, and for every
reachable active-dataset state of the dashboard the analysis request omits
`file_id` exactly when the active dataset is the default one, and
otherwise sends the uploaded dataset id as `file_id`. -/
theorem fileId_default_sentinel (o : Option ActiveDataset)
    (h : reachableActiveDataset o) :
    (∀ d, initialActiveDataset = some d → d.id = "default" ∧ d.isDefault = true) ∧
    (fileIdFor o = none ↔ ∃ d, o = some d ∧ d.isDefault = true) ∧
    (∀ d, o = some d → d.isDefault = false → fileIdFor o = some d.id) ∧
    (resolveDatasetId none = "default" ∧ ∀ i, resolveDatasetId (some i) = i) := by
  refine ⟨?_, ?_, ?_, rfl, fun i => rfl⟩
  · intro d hd
    simp only [initialActiveDataset, Option.some.injEq] at hd
    subst hd
    exact ⟨rfl, rfl⟩
  · rcases h with h | h | ⟨resp, h⟩ <;> subst h <;>
      simp [fileIdFor, initialActiveDataset, datasetAfterClear, datasetAfterUpload]
  · intro d hd hdef
    rcases h with h | h | ⟨resp, h⟩ <;> subst h <;>
      simp_all [fileIdFor, initialActiveDataset, datasetAfterClear, datasetAfterUpload]

/-- Witness for C8: after a concrete upload the active dataset is reachable
and the analysis request carries its file id; the initial state is the
default sentinel and omits the id. -/
theorem fileId_default_sentinel_witness :
    reachableActiveDataset (datasetAfterUpload
      ⟨"success", "uploaded", "abc123", "data.csv", "csv", 10, ["time"], 100⟩) ∧
    fileIdFor (datasetAfterUpload
      ⟨"success", "uploaded", "abc123", "data.csv", "csv", 10, ["time"], 100⟩) =
      some "abc123" ∧
    fileIdFor initialActiveDataset = none := by
  have hreach : reachableActiveDataset (datasetAfterUpload
      ⟨"success", "uploaded", "abc123", "data.csv", "csv", 10, ["time"], 100⟩) :=
    Or.inr (Or.inr ⟨_, rfl⟩)
  have hinit : reachableActiveDataset initialActiveDataset := Or.inl rfl
  refine ⟨hreach, (fileId_default_sentinel _ hreach).2.2.1 _ rfl rfl, ?_⟩
  exact ((fileId_default_sentinel _ hinit).2.1).mpr
    ⟨{ id := "default", name := "la-haute-borne-data-2014-2015.csv", isDefault := true },
      rfl, rfl⟩

/-- The fold modelling `Math.min` over a non-empty spread is a lower bound
of all the spread values. -/
theorem minOf_le (x : ℚ) (xs : List ℚ) : ∀ y ∈ x :: xs, minOf x xs ≤ y := by
  induction xs generalizing x with
  | nil =>
      intro y hy
      rw [List.mem_singleton] at hy
      subst hy
      exact le_refl _
  | cons z zs ih =>
      intro y hy
      have hbase : minOf x (z :: zs) = minOf (min x z) zs := rfl
      have hmin : minOf (min x z) zs ≤ min x z := ih (min x z) _ (List.mem_cons_self _ _)
      rcases List.mem_cons.mp hy with rfl | hy'
      · exact hbase ▸ le_trans hmin (min_le_left _ _)
      rcases List.mem_cons.mp hy' with rfl | hy''
      · exact hbase ▸ le_trans hmin (min_le_right _ _)
      · exact hbase ▸ ih (min x z) y (List.mem_cons_of_mem _ hy'')

/-- The fold modelling `Math.max` over a non-empty spread is an upper bound
of all the spread values. -/
theorem le_maxOf (x : ℚ) (xs : List ℚ) : ∀ y ∈ x :: xs, y ≤ maxOf x xs := by
  induction xs generalizing x with
  | nil =>
      intro y hy
      rw [List.mem_singleton] at hy
      subst hy
      exact le_refl _
  | cons z zs ih =>
      intro y hy
      have hbase : maxOf x (z :: zs) = maxOf (max x z) zs := rfl
      have hmax : max x z ≤ maxOf (max x z) zs := ih (max x z) _ (List.mem_cons_self _ _)
      rcases List.mem_cons.mp hy with rfl | hy'
      · exact hbase ▸ le_trans (le_max_left _ _) hmax
      rcases List.mem_cons.mp hy' with rfl | hy''
      · exact hbase ▸ le_trans (le_max_right _ _) hmax
      · exact hbase ▸ ih (max x z) y (List.mem_cons_of_mem _ hy'')

/-- C9: in the comparison summary cards only analyses carrying a numeric
value for the metric contribute; when none does, no card is rendered, and
otherwise the displayed average is the arithmetic mean of the carried
values, the range is max minus min, and min le average le max always
holds. -/
theorem summary_stats_sound (k : MetricKey) (analyses : List AnalysisResponse) :
    (summaryValues k analyses = [] → summaryFor k analyses = none) ∧
    (∀ s, summaryFor k analyses = some s →
      s.avg = (summaryValues k analyses).sum / (summaryValues k analyses).length ∧
      s.range = s.maxVal - s.minVal ∧
      s.minVal ≤ s.avg ∧ s.avg ≤ s.maxVal) := by
  constructor
  · intro h
    simp [summaryFor, h]
  · intro s hs
    unfold summaryFor at hs
    rcases hvals : summaryValues k analyses with _ | ⟨v, vs⟩ <;> rw [hvals] at hs
    · cases hs
    · rw [Option.some.injEq] at hs
      subst hs
      have hlen : (0 : ℚ) < ((v :: vs).length : ℚ) := by
        exact_mod_cast Nat.succ_pos vs.length
      have hlo : ((v :: vs).length : ℚ) * minOf v vs ≤ (v :: vs).sum := by
        have := List.card_nsmul_le_sum (v :: vs) (minOf v vs) (minOf_le v vs)
        simpa [nsmul_eq_mul] using this
      have hhi : (v :: vs).sum ≤ ((v :: vs).length : ℚ) * maxOf v vs := by
        have := List.sum_le_card_nsmul (v :: vs) (maxOf v vs) (le_maxOf v vs)
        simpa [nsmul_eq_mul] using this
      refine ⟨rfl, rfl, ?_, ?_⟩
      · rw [le_div_iff₀ hlen]
        linarith
      · rw [div_le_iff₀ hlen]
        linarith

/-- Witness for C9: for two analyses carrying AEP values 10 and 20 the
summary card shows average 15, range 10, min 10 and max 20, with the
bounds of the theorem instantiated there. -/
theorem summary_stats_sound_witness :
    summaryFor MetricKey.aep_gwh
        [{ id := "a1", status := "completed",
           result := { analysis_type := "aep", aep_gwh := some 10 } },
         { id := "a2", status := "completed",
           result := { analysis_type := "aep", aep_gwh := some 20 } }] =
      some { avg := 15, range := 10, minVal := 10, maxVal := 20 } ∧
    ((10 : ℚ) ≤ 15 ∧ (15 : ℚ) ≤ 20) := by
  have hv : summaryValues MetricKey.aep_gwh
      [{ id := "a1", status := "completed",
         result := { analysis_type := "aep", aep_gwh := some 10 } },
       { id := "a2", status := "completed",
         result := { analysis_type := "aep", aep_gwh := some 20 } }] = [10, 20] := rfl
  have hsum : summaryFor MetricKey.aep_gwh
      [{ id := "a1", status := "completed",
         result := { analysis_type := "aep", aep_gwh := some 10 } },
       { id := "a2", status := "completed",
         result := { analysis_type := "aep", aep_gwh := some 20 } }] =
      some { avg := 15, range := 10, minVal := 10, maxVal := 20 } := by
    unfold summaryFor
    rw [hv]
    simp only [minOf, maxOf, List.foldl_cons, List.foldl_nil, List.sum_cons, List.sum_nil,
      List.length_cons, List.length_nil, Option.some.injEq, SummaryStats.mk.injEq]
    norm_num [min_def, max_def]
  have hb := (summary_stats_sound MetricKey.aep_gwh
      [{ id := "a1", status := "completed",
         result := { analysis_type := "aep", aep_gwh := some 10 } },
       { id := "a2", status := "completed",
         result := { analysis_type := "aep", aep_gwh := some 20 } }]).2 _ hsum
  exact ⟨hsum, hb.2.2⟩

/-- C10: the comparison export emits exactly one CSV row per analysis in
input order; any absent aep_gwh, uncertainty_pct, capacity_factor or
iterations value is written as the string 0, indistinguishable from a true
zero; and for an empty input list no file is produced. -/
theorem exportComparison_shape (analyses : List AnalysisResponse) :
    exportComparisonToCSV [] = none ∧
    (comparisonCsvLines analyses).length = analyses.length ∧
    (∀ i (hi : i < analyses.length),
      (comparisonCsvLines analyses).get ⟨i, by simpa [comparisonCsvLines] using hi⟩ =
        renderCsvRow (comparisonRowFor (analyses.get ⟨i, hi⟩))) ∧
    (∀ a : AnalysisResponse,
      comparisonRowFor { a with result := { a.result with aep_gwh := none } } =
        comparisonRowFor { a with result := { a.result with aep_gwh := some 0 } } ∧
      comparisonRowFor { a with result := { a.result with uncertainty_pct := none } } =
        comparisonRowFor { a with result := { a.result with uncertainty_pct := some 0 } } ∧
      comparisonRowFor { a with result := { a.result with capacity_factor := none } } =
        comparisonRowFor { a with result := { a.result with capacity_factor := some 0 } } ∧
      comparisonRowFor { a with result := { a.result with iterations := none } } =
        comparisonRowFor { a with result := { a.result with iterations := some 0 } }) ∧
    (analyses ≠ [] → ∃ content, exportComparisonToCSV analyses = some content) := by
  refine ⟨rfl, by simp [comparisonCsvLines], ?_, ?_, ?_⟩
  · intro i hi
    simp [comparisonCsvLines, List.getElem_map]
  · intro a
    refine ⟨?_, ?_, ?_, ?_⟩ <;> simp [comparisonRowFor]
  · intro hne
    refine ⟨String.intercalate "\n"
      (String.intercalate "," comparisonHeaders :: comparisonCsvLines analyses), ?_⟩
    unfold exportComparisonToCSV
    rw [if_neg (by simpa using hne)]

/-- Witness for C10: a singleton list with every optional metric absent
exports one data row whose numeric cells all read 0. -/
theorem exportComparison_shape_witness :
    ([({ id := "a1", status := "completed",
         result := { analysis_type := "electrical_losses" } } : AnalysisResponse)] ≠
        ([] : List AnalysisResponse)) ∧
    (∃ content, exportComparisonToCSV
        [{ id := "a1", status := "completed",
           result := { analysis_type := "electrical_losses" } }] = some content) ∧
    comparisonRowFor
        { id := "a1", status := "completed",
          result := { analysis_type := "electrical_losses" } } =
      ["a1", "electrical_losses", "0", "0", "0", "0", "completed", ""] := by
  refine ⟨by simp, ?_, by decide⟩
  exact (exportComparison_shape
    [{ id := "a1", status := "completed",
       result := { analysis_type := "electrical_losses" } }]).2.2.2.2 (by simp)

/-- Witness for C5: after a select-all interaction the run handler fires
with exactly the three enabled types, and the conclusion instantiated there
confirms neither long-running type is passed. -/
theorem selector_excludes_long_running_witness :
    handleRunMultiple (runSelector [SelectorOp.selectAll]) =
      some [AnalysisType.aep_monte_carlo, AnalysisType.electrical_losses,
        AnalysisType.eya_gap_analysis] ∧
    (AnalysisType.wake_losses ∉
        [AnalysisType.aep_monte_carlo, AnalysisType.electrical_losses,
          AnalysisType.eya_gap_analysis] ∧
      AnalysisType.turbine_ideal_energy ∉
        [AnalysisType.aep_monte_carlo, AnalysisType.electrical_losses,
          AnalysisType.eya_gap_analysis]) := by
  refine ⟨by decide, (selector_excludes_long_running [SelectorOp.selectAll]).2.1 _ (by decide)⟩

end OpenOA
